import Mathlib

/-!
Shallow embedding of the wealth-app client (TypeScript) for specification
verification.  The domain records, the price-enrichment service
(src/services/priceService.ts, fetchMarketPrices), the option ROI and
distance-to-strike computations (src/pages/AssetDashboard.tsx / the options
journal), the CRUD state transitions, and the gist backup/restore handlers
(src/App.tsx) are translated into executable Lean definitions.  Network
transports are abstracted into explicit environment records holding the
(parsed) responses the code would have observed; JavaScript truthiness tests
are translated literally (empty string, 0, undefined and null are falsy,
arrays - including the empty array - are truthy).
-/

namespace WealthApp

/-- Uppercase a string character-wise, mirroring JS String.toUpperCase on the
ASCII tickers the app manipulates. -/
def upper (s : String) : String := String.mk (s.data.map Char.toUpper)

/-- Lowercase a string character-wise, mirroring JS String.toLowerCase. -/
def lower (s : String) : String := String.mk (s.data.map Char.toLower)

/-- JS `x || d` on an optional string: undefined and the empty string are
falsy and fall through to the default. -/
def jsOr (o : Option String) (d : String) : String :=
  match o with
  | some s => if s = "" then d else s
  | none => d

/-- Asset.type in src/types: STOCK, CRYPTO or CASH. -/
inductive AssetType
  | STOCK
  | CRYPTO
  | CASH
  deriving DecidableEq

/-- The Asset record (src/types); numeric fields are modelled as rationals. -/
structure Asset where
  id : String
  name : String
  ticker : Option String
  type : AssetType
  quantity : ℚ
  currentPrice : ℚ
  currency : String
  lastUpdated : Option String
  deriving DecidableEq

/-- The price mapping built by fetchMarketPrices: a JS object record,
modelled as an association list with first-key-wins lookup and
update-or-append assignment. -/
abbrev Record := List (String × ℚ)

/-- JS record assignment on the price mapping. -/
def recSet (m : Record) (k : String) (v : ℚ) : Record :=
  if (m.lookup k).isSome then
    m.map (fun e => if e.1 = k then (k, v) else e)
  else
    m ++ [(k, v)]

/-- The static ticker-to-CoinGecko-id table of priceService.ts. -/
def COINGECKO_MAP : List (String × String) :=
  [("BTC", "bitcoin"), ("ETH", "ethereum"), ("SOL", "solana"),
   ("USDT", "tether"), ("USDC", "usd-coin"), ("BNB", "binancecoin"),
   ("DOGE", "dogecoin"), ("XRP", "ripple"), ("ADA", "cardano"),
   ("AVAX", "avalanche-2"), ("DOT", "polkadot"), ("LINK", "chainlink")]

/-- `asset.ticker?.toUpperCase() || asset.name.toUpperCase()` from
fetchMarketPrices. -/
def tickerUC (a : Asset) : String :=
  jsOr (a.ticker.map upper) (upper a.name)

/-- `COINGECKO_MAP[ticker] || asset.name.toLowerCase()`. -/
def geckoId (a : Asset) : String :=
  jsOr (COINGECKO_MAP.lookup (tickerUC a)) (lower a.name)

/-- `asset.ticker || asset.name`: the key under which a price is recorded. -/
def assetKey (a : Asset) : String :=
  jsOr a.ticker a.name

/-- The loose match of the stock merge step:
`(a.ticker?.toUpperCase() === ticker.toUpperCase()) ||
 (a.name.toUpperCase() === ticker.toUpperCase())`. -/
def matchesTicker (a : Asset) (t : String) : Bool :=
  (match a.ticker with
   | some s => upper s == upper t
   | none => false) || (upper a.name == upper t)

/-- The crypto merge loop of fetchMarketPrices: for each CRYPTO asset,
re-derive its gecko id and, when the response object holds a truthy usd
value for it, record the price under `asset.ticker || asset.name`.
A usd value of 0 is falsy in JS and skipped. -/
def cryptoMerge (assets : List Asset) (data : List (String × ℚ))
    (prices : Record) : Record :=
  (assets.filter (fun a => decide (a.type = AssetType.CRYPTO))).foldl
    (fun m a =>
      match data.lookup (geckoId a) with
      | some usd => if usd = 0 then m else recSet m (assetKey a) usd
      | none => m)
    prices

/-- One entry of the stock merge loop: find the first asset matching the
returned ticker loosely; key the price by that asset's `ticker || name`,
falling back to the raw returned ticker when no asset matches. -/
def stockMergeOne (assets : List Asset) (m : Record) (e : String × ℚ) :
    Record :=
  match assets.find? (fun a => matchesTicker a e.1) with
  | some a => recSet m (assetKey a) e.2
  | none => recSet m e.1 e.2

/-- The stock merge loop of fetchMarketPrices over the parsed
ticker-to-price entries of the stock response. -/
def stockMerge (assets : List Asset) (data : List (String × ℚ))
    (prices : Record) : Record :=
  data.foldl (stockMergeOne assets) prices

/-- The key a returned stock price ends up under. -/
def mergeKey (assets : List Asset) (t : String) : String :=
  match assets.find? (fun a => matchesTicker a t) with
  | some a => assetKey a
  | none => t

/-- The gecko ids requested for the crypto subset. -/
def cryptoIdsOf (assets : List Asset) : List String :=
  (assets.filter (fun a => decide (a.type = AssetType.CRYPTO))).map geckoId

/-- The uppercased tickers requested for the stock subset. -/
def stockTickersOf (assets : List Asset) : List String :=
  (assets.filter (fun a => decide (a.type = AssetType.STOCK))).map tickerUC

/-- The behaviour of the two external sources during one invocation of
fetchMarketPrices, with the transport abstracted away: `.error` is a thrown
network/parse failure at any stage of that sub-fetch, `.ok none` is a
response that was received but carried no usable data (non-ok status,
missing payload shape, or - in the Gemini variant - a missing API key), and
`.ok (some data)` is the parsed id/ticker-to-price payload. -/
structure FetchEnv where
  cryptoResp : Except String (Option (List (String × ℚ)))
  stockResp : Except String (Option (List (String × ℚ)))

/-- fetchMarketPrices (src/services/priceService.ts): partition the assets,
merge the crypto response, then the stock response; a stage whose response
failed or carried no data contributes nothing. -/
def fetchMarketPrices (env : FetchEnv) (assets : List Asset) : Record :=
  let prices : Record := []
  let prices :=
    if (cryptoIdsOf assets).isEmpty then prices
    else
      match env.cryptoResp with
      | Except.ok (some data) => cryptoMerge assets data prices
      | _ => prices
  if (stockTickersOf assets).isEmpty then prices
  else
    match env.stockResp with
    | Except.ok (some data) => stockMerge assets data prices
    | _ => prices

/-- fetchMarketPrices with exceptions made explicit: each fetch stage runs in
the exception monad (a thrown network or parse error is `Except.error`), and
the try/catch blocks of the source are translated literally, each one
catching its stage's error and continuing with the mapping built so far. -/
def fetchMarketPricesE (env : FetchEnv) (assets : List Asset) :
    Except String Record :=
  let prices0 : Record := []
  let step1 : Except String Record :=
    if (cryptoIdsOf assets).isEmpty then Except.ok prices0
    else
      match env.cryptoResp.map (fun o =>
        match o with
        | some data => cryptoMerge assets data prices0
        | none => prices0) with
      | Except.ok p => Except.ok p
      | Except.error _ => Except.ok prices0
  step1.bind (fun p1 =>
    if (stockTickersOf assets).isEmpty then Except.ok p1
    else
      match env.stockResp.map (fun o =>
        match o with
        | some data => stockMerge assets data p1
        | none => p1) with
      | Except.ok p => Except.ok p
      | Except.error _ => Except.ok p1)

/-- `Object.keys(prices).find(k => k.toLowerCase() === key.toLowerCase())`
from handleUpdatePrices (AssetDashboard). -/
def matchedPriceKey (prices : Record) (key : String) : Option String :=
  (prices.map Prod.fst).find? (fun k => lower k == lower key)

/-- One asset of the handleUpdatePrices state update: when a key of the
mapping matches the asset's key case-insensitively and holds a truthy price,
overwrite currentPrice and stamp lastUpdated; otherwise leave the asset. -/
def applyOne (prices : Record) (ts : String) (a : Asset) : Asset :=
  match matchedPriceKey prices (assetKey a) with
  | some k =>
    if k = "" then a
    else
      match prices.lookup k with
      | some v =>
        if v = 0 then a
        else { a with currentPrice := v, lastUpdated := some ts }
      | none => a
  | none => a

/-- The setAssets update of handleUpdatePrices applied to the whole list. -/
def applyPrices (assets : List Asset) (prices : Record) (ts : String) :
    List Asset :=
  assets.map (applyOne prices ts)

/-- OptionType (src/types): SHORT_PUT or LONG_CALL. -/
inductive OptionType
  | SHORT_PUT
  | LONG_CALL
  deriving DecidableEq

/-- Trade status literals of src/types. -/
inductive TradeStatus
  | OPEN
  | CLOSED
  | EXPIRED
  deriving DecidableEq

/-- The OptionTrade record (src/types). -/
structure OptionTrade where
  id : String
  ticker : String
  type : OptionType
  status : TradeStatus
  openDate : String
  expiryDate : String
  strikePrice : ℚ
  premium : ℚ
  collateralOrCost : ℚ
  closePrice : Option ℚ
  notes : Option String
  deriving DecidableEq

/-- calculateROI from the options journal: the guard
`if (!trade.premium || !trade.collateralOrCost) return 0` is translated
as the JS-falsiness test of the two numbers; for a SHORT_PUT the ROI is
premium / collateralOrCost * 100; for a LONG_CALL it is
(closePrice - premium) / premium * 100 when the trade is CLOSED with a
recorded closePrice, and 0 otherwise. -/
def calculateROI (t : OptionTrade) : ℚ :=
  if t.premium = 0 ∨ t.collateralOrCost = 0 then 0
  else if t.type = OptionType.SHORT_PUT then
    t.premium / t.collateralOrCost * 100
  else
    match t.status, t.closePrice with
    | TradeStatus.CLOSED, some cp => (cp - t.premium) / t.premium * 100
    | _, _ => 0

/-- The observable output of renderDistanceToStrike: either the placeholder
dash (no truthy current price, or the trade is not OPEN), or the rendered
cell carrying the isSafe flag, the label text and the signed percentage
distance (the view shows its absolute value). -/
inductive StrikeRender
  | noData
  | render (isSafe : Bool) (label : String) (diffPercent : ℚ)
  deriving DecidableEq

/-- renderDistanceToStrike from the options journal: look the ticker up in
the fetched price mapping; bail out unless the price is truthy and the trade
is OPEN; both strategies test `currentPrice > strikePrice`, SHORT_PUT
labelling the true branch 價外 (OTM) and LONG_CALL labelling it 價內 (ITM). -/
def renderDistanceToStrike (prices : Record) (t : OptionTrade) :
    StrikeRender :=
  match prices.lookup t.ticker with
  | none => StrikeRender.noData
  | some p =>
    if p = 0 ∨ t.status ≠ TradeStatus.OPEN then StrikeRender.noData
    else
      let diffPercent := (p - t.strikePrice) / p * 100
      if t.type = OptionType.SHORT_PUT then
        StrikeRender.render (decide (p > t.strikePrice))
          (if p > t.strikePrice then "價外 (OTM)" else "價內 (ITM)")
          diffPercent
      else
        StrikeRender.render (decide (p > t.strikePrice))
          (if p > t.strikePrice then "價內 (ITM)" else "價外 (OTM)")
          diffPercent

/-- The asset form state of AssetDashboard (all fields present, strings
defaulting to empty and numbers to 0, as initialised by resetForm). -/
structure AssetForm where
  name : String
  ticker : String
  type : AssetType
  quantity : ℚ
  currentPrice : ℚ
  currency : String
  deriving DecidableEq

/-- The asset built by the create branch of handleSaveAsset; `genId` is the
`Date.now().toString()` value supplied by the clock. -/
def mkAsset (genId : String) (f : AssetForm) : Asset :=
  { id := genId
    name := f.name
    ticker := some (jsOr (some (upper f.ticker)) (upper f.name))
    type := f.type
    quantity := f.quantity
    currentPrice := f.currentPrice
    currency := jsOr (some f.currency) "USD"
    lastUpdated := some "today" }

/-- The update branch of handleSaveAsset applied to the matched asset:
every field except the id is replaced from the form. -/
def applyAssetForm (a : Asset) (f : AssetForm) : Asset :=
  { a with
    name := f.name
    ticker := some (jsOr (some (upper f.ticker)) (upper f.name))
    type := f.type
    quantity := f.quantity
    currentPrice := f.currentPrice
    currency := jsOr (some f.currency) "USD"
    lastUpdated := some "today" }

/-- One user action on the asset collection; create carries the id the
clock generated, delete carries the outcome of the confirm dialog. -/
inductive AssetOp
  | create (genId : String) (f : AssetForm)
  | update (editingId : String) (f : AssetForm)
  | delete (id : String) (confirmed : Bool)
  deriving DecidableEq

/-- One step of the asset CRUD state (handleSaveAsset / handleDelete):
the guard `if (!formAsset.name || !formAsset.quantity) return` makes an
invalid form a no-op; create appends; update maps by id; delete filters by
id when confirmed. -/
def assetStep (s : List Asset) : AssetOp → List Asset
  | AssetOp.create genId f =>
    if f.name = "" ∨ f.quantity = 0 then s
    else s ++ [mkAsset genId f]
  | AssetOp.update editingId f =>
    if f.name = "" ∨ f.quantity = 0 then s
    else s.map (fun a => if a.id = editingId then applyAssetForm a f else a)
  | AssetOp.delete i confirmed =>
    if confirmed then s.filter (fun a => a.id ≠ i) else s

/-- A whole user session on the asset collection. -/
def assetRun (s : List Asset) (ops : List AssetOp) : List Asset :=
  ops.foldl assetStep s

/-- The trade form state of the options journal. -/
structure TradeForm where
  ticker : String
  type : OptionType
  status : TradeStatus
  openDate : String
  expiryDate : String
  strikePrice : ℚ
  premium : ℚ
  collateralOrCost : ℚ
  closePrice : Option ℚ
  notes : Option String
  deriving DecidableEq

/-- The trade built by the create branch of the journal's handleSave. -/
def mkTrade (genId : String) (f : TradeForm) : OptionTrade :=
  { id := genId
    ticker := upper f.ticker
    type := f.type
    status := f.status
    openDate := f.openDate
    expiryDate := f.expiryDate
    strikePrice := f.strikePrice
    premium := f.premium
    collateralOrCost := f.collateralOrCost
    closePrice := f.closePrice
    notes := f.notes }

/-- The update branch of the journal's handleSave: all fields but the id
(and closePrice, which the update spread does not set) come from the form. -/
def applyTradeForm (t : OptionTrade) (f : TradeForm) : OptionTrade :=
  { t with
    ticker := upper f.ticker
    type := f.type
    status := f.status
    openDate := f.openDate
    expiryDate := f.expiryDate
    strikePrice := f.strikePrice
    premium := f.premium
    collateralOrCost := f.collateralOrCost
    notes := f.notes }

/-- One user action on the trade collection. -/
inductive TradeOp
  | create (genId : String) (f : TradeForm)
  | update (editingId : String) (f : TradeForm)
  | delete (id : String) (confirmed : Bool)
  deriving DecidableEq

/-- One step of the trade CRUD state: the guard
`if (!formData.ticker || !formData.openDate || !formData.strikePrice) return`
makes an invalid form a no-op; create prepends; update maps by id; delete
filters by id when confirmed. -/
def tradeStep (s : List OptionTrade) : TradeOp → List OptionTrade
  | TradeOp.create genId f =>
    if f.ticker = "" ∨ f.openDate = "" ∨ f.strikePrice = 0 then s
    else mkTrade genId f :: s
  | TradeOp.update editingId f =>
    if f.ticker = "" ∨ f.openDate = "" ∨ f.strikePrice = 0 then s
    else s.map (fun t => if t.id = editingId then applyTradeForm t f else t)
  | TradeOp.delete i confirmed =>
    if confirmed then s.filter (fun t => t.id ≠ i) else s

/-- A whole user session on the trade collection. -/
def tradeRun (s : List OptionTrade) (ops : List TradeOp) : List OptionTrade :=
  ops.foldl tradeStep s

/-- Airdrop status literals of src/types. -/
inductive AirdropStatus
  | New
  | Farming
  | Waitlist
  | Claimable
  | Finished
  deriving DecidableEq

/-- Airdrop priority literals. -/
inductive AirdropPriority
  | High
  | Medium
  | Low
  deriving DecidableEq

/-- The AirdropProject record (src/types). -/
structure AirdropProject where
  id : String
  name : String
  twitterUrl : Option String
  status : AirdropStatus
  priority : AirdropPriority
  notes : Option String
  deriving DecidableEq

/-- The airdrop form state of AirdropTracker. -/
structure AirdropForm where
  name : String
  twitterUrl : Option String
  status : AirdropStatus
  priority : AirdropPriority
  notes : Option String
  deriving DecidableEq

/-- The project built by the create branch of AirdropTracker's handleSave. -/
def mkProject (genId : String) (f : AirdropForm) : AirdropProject :=
  { id := genId
    name := f.name
    twitterUrl := f.twitterUrl
    status := f.status
    priority := f.priority
    notes := f.notes }

/-- The update branch of AirdropTracker's handleSave: all fields but the id
come from the form. -/
def applyAirdropForm (a : AirdropProject) (f : AirdropForm) :
    AirdropProject :=
  { a with
    name := f.name
    twitterUrl := f.twitterUrl
    status := f.status
    priority := f.priority
    notes := f.notes }

/-- One user action on the airdrop collection. -/
inductive AirdropOp
  | create (genId : String) (f : AirdropForm)
  | update (editingId : String) (f : AirdropForm)
  | delete (id : String) (confirmed : Bool)
  deriving DecidableEq

/-- One step of the airdrop CRUD state: `if (!formData.name) return` makes a
nameless form a no-op; create prepends; update maps by id; delete filters by
id when confirmed. -/
def airdropStep (s : List AirdropProject) : AirdropOp → List AirdropProject
  | AirdropOp.create genId f =>
    if f.name = "" then s
    else mkProject genId f :: s
  | AirdropOp.update editingId f =>
    if f.name = "" then s
    else s.map (fun a => if a.id = editingId then applyAirdropForm a f else a)
  | AirdropOp.delete i confirmed =>
    if confirmed then s.filter (fun a => a.id ≠ i) else s

/-- A whole user session on the airdrop collection. -/
def airdropRun (s : List AirdropProject) (ops : List AirdropOp) :
    List AirdropProject :=
  ops.foldl airdropStep s

/-- The manual P&L entry record; only its identity matters to the backup
claims, its fields are peripheral in the source. -/
structure PnLEntry where
  id : String
  month : String
  amount : ℚ
  deriving DecidableEq

/-- The four persisted collections restored by handleDownloadFromGist. -/
structure AppState where
  assets : List Asset
  trades : List OptionTrade
  manualPnL : List PnLEntry
  airdrops : List AirdropProject
  deriving DecidableEq

/-- One collection field of the parsed gist payload: `none` is an absent
key, `some none` is a key present with a JSON-falsy value (null), and
`some (some l)` is a key present with an array value; in JS every array,
the empty one included, is truthy. -/
abbrev PayloadField (α : Type) := Option (Option (List α))

/-- The parsed JSON payload of the downloaded gist document. -/
structure GistPayload where
  assets : PayloadField Asset
  trades : PayloadField OptionTrade
  manualPnL : PayloadField PnLEntry
  airdrops : PayloadField AirdropProject
  deriving DecidableEq

/-- The restore block of handleDownloadFromGist:
`if (parsed.assets) setAssets(parsed.assets)` and its three siblings; each
collection is replaced exactly when its payload value is truthy. -/
def restoreState (s : AppState) (p : GistPayload) : AppState :=
  { assets := match p.assets with
      | some (some l) => l
      | _ => s.assets
    trades := match p.trades with
      | some (some l) => l
      | _ => s.trades
    manualPnL := match p.manualPnL with
      | some (some l) => l
      | _ => s.manualPnL
    airdrops := match p.airdrops with
      | some (some l) => l
      | _ => s.airdrops }

/-- SyncConfig (src/types): the gist credential and document id. -/
structure SyncConfig where
  githubToken : String
  gistId : String
  lastSyncTime : Option String
  deriving DecidableEq

/-- HTTP method of a gist request issued by handleUploadToGist. -/
inductive HttpMethod
  | POST
  | PATCH
  deriving DecidableEq

/-- The environment of one upload attempt: the HTTP status the single fetch
would return, the id of the created gist, and the clock reading. -/
structure UploadEnv where
  status : Nat
  newGistId : String
  now : String
  deriving DecidableEq

/-- The user-observable outcome of handleUploadToGist. -/
inductive UploadResult
  | missingToken
  | success (cfg : SyncConfig)
  | failure (msg : String)
  deriving DecidableEq

/-- The gists endpoint of the backup store. -/
def gistsBaseUrl : String := "https://api.github.com/gists"

/-- handleUploadToGist (src/App.tsx), returning the outcome together with
the list of network requests issued: an empty token aborts before any fetch;
a known gist id turns the single request into a PATCH of that document; a
404 on that PATCH is surfaced as the distinct clear-the-id error and no
creating POST is attempted; any other non-ok response is a generic error. -/
def handleUploadToGist (cfg : SyncConfig) (env : UploadEnv) :
    UploadResult × List (HttpMethod × String) :=
  if cfg.githubToken = "" then (UploadResult.missingToken, [])
  else
    let url := if cfg.gistId = "" then gistsBaseUrl
      else gistsBaseUrl ++ "/" ++ cfg.gistId
    let method := if cfg.gistId = "" then HttpMethod.POST else HttpMethod.PATCH
    let req := [(method, url)]
    if 200 ≤ env.status ∧ env.status < 300 then
      let newCfg : SyncConfig :=
        { githubToken := cfg.githubToken
          gistId := if cfg.gistId = "" then env.newGistId else cfg.gistId
          lastSyncTime := some env.now }
      (UploadResult.success newCfg, req)
    else if env.status = 404 ∧ cfg.gistId ≠ "" then
      (UploadResult.failure "Gist ID not found. Clear ID to create new.", req)
    else
      (UploadResult.failure "GitHub API Error", req)

/-! Concrete records used to evaluate the definitions on the spec's
worked examples. -/

/-- A short put: premium 500 against collateral 10000. -/
def spTrade : OptionTrade :=
  { id := "1", ticker := "AAPL", type := OptionType.SHORT_PUT,
    status := TradeStatus.OPEN, openDate := "2024-01-05",
    expiryDate := "2024-02-16", strikePrice := 180, premium := 500,
    collateralOrCost := 10000, closePrice := none, notes := none }

/-- A closed long call: premium 300, close price 450, cost 300. -/
def lcClosedTrade : OptionTrade :=
  { id := "2", ticker := "TSLA", type := OptionType.LONG_CALL,
    status := TradeStatus.CLOSED, openDate := "2024-01-05",
    expiryDate := "2024-02-16", strikePrice := 200, premium := 300,
    collateralOrCost := 300, closePrice := some 450, notes := none }

/-- An open long call with nonzero premium and cost. -/
def lcOpenTrade : OptionTrade :=
  { id := "3", ticker := "TSLA", type := OptionType.LONG_CALL,
    status := TradeStatus.OPEN, openDate := "2024-01-05",
    expiryDate := "2024-02-16", strikePrice := 200, premium := 300,
    collateralOrCost := 300, closePrice := none, notes := none }

/-- A closed long call with a recorded close price but collateralOrCost 0. -/
def lcZeroCostTrade : OptionTrade :=
  { id := "4", ticker := "TSLA", type := OptionType.LONG_CALL,
    status := TradeStatus.CLOSED, openDate := "2024-01-05",
    expiryDate := "2024-02-16", strikePrice := 200, premium := 300,
    collateralOrCost := 0, closePrice := some 450, notes := none }

/-- C1 counterexample: the claim demands ROI (450 - 300) / 300 * 100 = 50
for every CLOSED LONG_CALL with premium 300 and closePrice 450, but the
guard of calculateROI returns 0 as soon as collateralOrCost is falsy, so
the trade lcZeroCostTrade evaluates to 0, not 50. -/
theorem calculateROI_c1_counterexample :
    lcZeroCostTrade.type = OptionType.LONG_CALL ∧
    lcZeroCostTrade.status = TradeStatus.CLOSED ∧
    lcZeroCostTrade.closePrice = some 450 ∧
    calculateROI lcZeroCostTrade = 0 ∧
    ((450 : ℚ) - 300) / 300 * 100 = 50 ∧ (0 : ℚ) ≠ 50 := by
  refine ⟨rfl, rfl, rfl, by decide, by norm_num, by norm_num⟩

/-- C1 (amended): provided premium and collateralOrCost are both nonzero,
calculateROI returns premium / collateralOrCost * 100 for a SHORT_PUT, and
for a LONG_CALL returns (closePrice - premium) / premium * 100 when the
trade is CLOSED with a recorded close price and 0 otherwise. -/
theorem calculateROI_c1_amended (t : OptionTrade) (hp : t.premium ≠ 0)
    (hc : t.collateralOrCost ≠ 0) :
    (t.type = OptionType.SHORT_PUT →
      calculateROI t = t.premium / t.collateralOrCost * 100) ∧
    (t.type = OptionType.LONG_CALL → t.status = TradeStatus.CLOSED →
      ∀ cp, t.closePrice = some cp →
        calculateROI t = (cp - t.premium) / t.premium * 100) ∧
    (t.type = OptionType.LONG_CALL →
      t.status ≠ TradeStatus.CLOSED ∨ t.closePrice = none →
      calculateROI t = 0) := by
  refine ⟨fun ht => ?_, fun ht hs cp hcp => ?_, fun ht hd => ?_⟩
  · simp [calculateROI, hp, hc, ht]
  · simp [calculateROI, hp, hc, ht, hs, hcp]
  · rcases hd with hd | hd
    · cases h : t.status <;> simp_all [calculateROI, hp, hc, ht]
    · cases h : t.status <;> simp_all [calculateROI, hp, hc, ht]

/-- C1 witness: the three worked examples of the amended claim, each
discharged through calculateROI_c1_amended: the short put yields 5 percent,
the closed long call 50 percent, the open long call 0. -/
theorem calculateROI_c1_amended_witness :
    calculateROI spTrade = 5 ∧ calculateROI lcClosedTrade = 50 ∧
    calculateROI lcOpenTrade = 0 := by
  refine ⟨?_, ?_, ?_⟩
  · have h := (calculateROI_c1_amended spTrade (by decide) (by decide)).1 rfl
    rw [h]; norm_num [spTrade]
  · have h := (calculateROI_c1_amended lcClosedTrade (by decide)
      (by decide)).2.1 rfl rfl 450 rfl
    rw [h]; norm_num [lcClosedTrade]
  · exact (calculateROI_c1_amended lcOpenTrade (by decide)
      (by decide)).2.2 rfl (Or.inl (by decide))

/-- C10: whenever premium or collateralOrCost is 0 (JS-falsy), calculateROI
returns 0 regardless of the trade's type, status or closePrice. -/
theorem calculateROI_zero_guard (t : OptionTrade)
    (h : t.premium = 0 ∨ t.collateralOrCost = 0) :
    calculateROI t = 0 := by
  simp [calculateROI, h]

/-- C10 witness: the closed long call with recorded closePrice 450 but
collateralOrCost 0 evaluates to ROI 0 through the guard. -/
theorem calculateROI_zero_guard_witness :
    lcZeroCostTrade.collateralOrCost = 0 ∧
    lcZeroCostTrade.closePrice = some 450 ∧
    calculateROI lcZeroCostTrade = 0 :=
  ⟨rfl, rfl, calculateROI_zero_guard lcZeroCostTrade (Or.inr rfl)⟩

/-- C8: for an OPEN trade whose ticker has a truthy fetched price, both
strategies are classified by the identical comparison price > strike;
SHORT_PUT labels the true branch 價外 (OTM) (safe) and LONG_CALL labels the
same true branch 價內 (ITM) (profitable). -/
theorem renderDistanceToStrike_c8 (prices : Record) (t : OptionTrade)
    (p : ℚ) (hp : prices.lookup t.ticker = some p) (hpz : p ≠ 0)
    (hopen : t.status = TradeStatus.OPEN) :
    (t.type = OptionType.SHORT_PUT →
      renderDistanceToStrike prices t =
        StrikeRender.render (decide (p > t.strikePrice))
          (if p > t.strikePrice then "價外 (OTM)" else "價內 (ITM)")
          ((p - t.strikePrice) / p * 100)) ∧
    (t.type = OptionType.LONG_CALL →
      renderDistanceToStrike prices t =
        StrikeRender.render (decide (p > t.strikePrice))
          (if p > t.strikePrice then "價內 (ITM)" else "價外 (OTM)")
          ((p - t.strikePrice) / p * 100)) := by
  constructor
  · intro ht
    simp [renderDistanceToStrike, hp, hpz, hopen, ht]
  · intro ht
    simp [renderDistanceToStrike, hp, hpz, hopen, ht]

/-- C8 witness: at market price 110 and strike 100 the open short put is
rendered safe 價外 (OTM) and the open long call profitable 價內 (ITM), both
from the same true comparison 110 > 100. -/
theorem renderDistanceToStrike_c8_witness :
    renderDistanceToStrike [("TSLA", 110)]
      { lcOpenTrade with strikePrice := 100, type := OptionType.SHORT_PUT } =
      StrikeRender.render true "價外 (OTM)" ((110 - 100) / 110 * 100) ∧
    renderDistanceToStrike [("TSLA", 110)]
      { lcOpenTrade with strikePrice := 100 } =
      StrikeRender.render true "價內 (ITM)" ((110 - 100) / 110 * 100) := by
  constructor
  · have h := (renderDistanceToStrike_c8 [("TSLA", 110)]
      { lcOpenTrade with strikePrice := 100, type := OptionType.SHORT_PUT }
      110 (by decide) (by norm_num) rfl).1 rfl
    rw [h]
    norm_num [lcOpenTrade]
  · have h := (renderDistanceToStrike_c8 [("TSLA", 110)]
      { lcOpenTrade with strikePrice := 100 }
      110 (by decide) (by norm_num) rfl).2 rfl
    rw [h]
    norm_num [lcOpenTrade]

/-- C7: an upload with an empty token aborts with the missing-token outcome
before any request is issued, and an upload with a known gist id whose
single PATCH returns 404 surfaces the distinct clear-the-id error without
falling back to a creating POST. -/
theorem handleUploadToGist_c7 (cfg : SyncConfig) (env : UploadEnv) :
    (cfg.githubToken = "" →
      handleUploadToGist cfg env = (UploadResult.missingToken, [])) ∧
    (cfg.githubToken ≠ "" → cfg.gistId ≠ "" → env.status = 404 →
      handleUploadToGist cfg env =
        (UploadResult.failure "Gist ID not found. Clear ID to create new.",
         [(HttpMethod.PATCH, gistsBaseUrl ++ "/" ++ cfg.gistId)])) := by
  constructor
  · intro h
    simp [handleUploadToGist, h]
  · intro htok hid hst
    simp [handleUploadToGist, htok, hid, hst]

/-- C7 witness: the two branches evaluated concretely: no token aborts with
no request, and a 404 on the PATCH of gist id g1 yields the distinct
error with exactly that one PATCH request. -/
theorem handleUploadToGist_c7_witness :
    handleUploadToGist
        { githubToken := "", gistId := "g1", lastSyncTime := none }
        { status := 404, newGistId := "n1", now := "t" } =
      (UploadResult.missingToken, []) ∧
    handleUploadToGist
        { githubToken := "tok", gistId := "g1", lastSyncTime := none }
        { status := 404, newGistId := "n1", now := "t" } =
      (UploadResult.failure "Gist ID not found. Clear ID to create new.",
       [(HttpMethod.PATCH, gistsBaseUrl ++ "/" ++ "g1")]) := by
  constructor
  · exact (handleUploadToGist_c7
      { githubToken := "", gistId := "g1", lastSyncTime := none }
      { status := 404, newGistId := "n1", now := "t" }).1 rfl
  · exact (handleUploadToGist_c7
      { githubToken := "tok", gistId := "g1", lastSyncTime := none }
      { status := 404, newGistId := "n1", now := "t" }).2
      (by decide) (by decide) rfl

/-- An app state holding one record in every collection. -/
def sampleState : AppState :=
  { assets := [{ id := "a1", name := "Apple", ticker := some "AAPL",
                 type := AssetType.STOCK, quantity := 50, currentPrice := 175,
                 currency := "USD", lastUpdated := none }],
    trades := [spTrade],
    manualPnL := [{ id := "p1", month := "2024-01", amount := 1200 }],
    airdrops := [{ id := "d1", name := "Example Layer2",
                   twitterUrl := some "https://twitter.com/example",
                   status := AirdropStatus.Farming,
                   priority := AirdropPriority.High,
                   notes := some "Bridge weekly" }] }

/-- C2 counterexample: a payload whose assets key is present but bound to a
JSON-falsy value (null) leaves the local assets untouched, refuting the
claim that replacement happens if and only if the key is present: the
restore block tests truthiness, not presence. -/
theorem restoreState_c2_counterexample :
    (GistPayload.assets
        { assets := some none, trades := none, manualPnL := none,
          airdrops := none }).isSome = true ∧
    restoreState sampleState
        { assets := some none, trades := none, manualPnL := none,
          airdrops := none } = sampleState ∧
    sampleState.assets ≠ [] := by
  refine ⟨rfl, rfl, by simp [sampleState]⟩

/-- C2 (amended): each local collection is replaced exactly when its key is
present in the payload with a truthy value; a missing key or a key bound to
a falsy value (null) leaves the collection untouched, while a present array
value - the empty array included, arrays being truthy in JS - overwrites
the collection. -/
theorem restoreState_c2_amended (s : AppState) (p : GistPayload) :
    ((p.assets = none ∨ p.assets = some none) →
      (restoreState s p).assets = s.assets) ∧
    (∀ l, p.assets = some (some l) → (restoreState s p).assets = l) ∧
    ((p.trades = none ∨ p.trades = some none) →
      (restoreState s p).trades = s.trades) ∧
    (∀ l, p.trades = some (some l) → (restoreState s p).trades = l) ∧
    ((p.manualPnL = none ∨ p.manualPnL = some none) →
      (restoreState s p).manualPnL = s.manualPnL) ∧
    (∀ l, p.manualPnL = some (some l) → (restoreState s p).manualPnL = l) ∧
    ((p.airdrops = none ∨ p.airdrops = some none) →
      (restoreState s p).airdrops = s.airdrops) ∧
    (∀ l, p.airdrops = some (some l) → (restoreState s p).airdrops = l) := by
  refine ⟨fun h => ?_, fun l h => ?_, fun h => ?_, fun l h => ?_,
    fun h => ?_, fun l h => ?_, fun h => ?_, fun l h => ?_⟩ <;>
    first
      | (rcases h with h | h <;> simp [restoreState, h])
      | simp [restoreState, h]

/-- C2 witness: restoring sampleState from a payload that omits the assets
key, carries an explicitly empty trades list and a null airdrops value
leaves assets and airdrops untouched while wiping trades, each conjunct
discharged through restoreState_c2_amended. -/
theorem restoreState_c2_amended_witness :
    (restoreState sampleState
        { assets := none, trades := some (some []), manualPnL := none,
          airdrops := some none }).assets = sampleState.assets ∧
    (restoreState sampleState
        { assets := none, trades := some (some []), manualPnL := none,
          airdrops := some none }).trades = [] ∧
    (restoreState sampleState
        { assets := none, trades := some (some []), manualPnL := none,
          airdrops := some none }).airdrops = sampleState.airdrops := by
  refine ⟨?_, ?_, ?_⟩
  · exact (restoreState_c2_amended sampleState _).1 (Or.inl rfl)
  · exact (restoreState_c2_amended sampleState _).2.2.2.1 [] rfl
  · exact (restoreState_c2_amended sampleState _).2.2.2.2.2.2.1
      (Or.inr rfl)

/-! CRUD id uniqueness (C6). -/

/-- The ids of the asset collection, in order. -/
def assetIds (s : List Asset) : List String := s.map Asset.id

/-- The ids of the trade collection, in order. -/
def tradeIds (s : List OptionTrade) : List String := s.map OptionTrade.id

/-- The ids of the airdrop collection, in order. -/
def airdropIds (s : List AirdropProject) : List String :=
  s.map AirdropProject.id

/-- Every create of the asset session carries a generated id that is not
already present at the moment it runs (what a collision-free clock
guarantees). -/
def assetCreatesFresh : List Asset → List AssetOp → Bool
  | _, [] => true
  | s, op :: ops =>
    (match op with
     | AssetOp.create genId _ => !((assetIds s).contains genId)
     | _ => true) && assetCreatesFresh (assetStep s op) ops

/-- Freshness of the generated ids along a trade session. -/
def tradeCreatesFresh : List OptionTrade → List TradeOp → Bool
  | _, [] => true
  | s, op :: ops =>
    (match op with
     | TradeOp.create genId _ => !((tradeIds s).contains genId)
     | _ => true) && tradeCreatesFresh (tradeStep s op) ops

/-- Freshness of the generated ids along an airdrop session. -/
def airdropCreatesFresh : List AirdropProject → List AirdropOp → Bool
  | _, [] => true
  | s, op :: ops =>
    (match op with
     | AirdropOp.create genId _ => !((airdropIds s).contains genId)
     | _ => true) && airdropCreatesFresh (airdropStep s op) ops

theorem assetStep_nodup (s : List Asset) (op : AssetOp)
    (h : (assetIds s).Nodup)
    (hf : ∀ gid f, op = AssetOp.create gid f → gid ∉ assetIds s) :
    (assetIds (assetStep s op)).Nodup := by
  cases op with
  | create gid f =>
    rw [assetStep]
    split
    · exact h
    · have hg : gid ∉ assetIds s := hf gid f rfl
      have he : assetIds (s ++ [mkAsset gid f]) = assetIds s ++ [gid] := by
        simp [assetIds, mkAsset]
      rw [he, List.nodup_append]
      exact ⟨h, List.nodup_singleton _, by simpa using hg⟩
  | update eid f =>
    rw [assetStep]
    split
    · exact h
    · have he :
          assetIds (s.map fun a =>
            if a.id = eid then applyAssetForm a f else a) = assetIds s := by
        simp only [assetIds, List.map_map]
        apply List.map_congr_left
        intro a _
        by_cases ha : a.id = eid <;> simp [ha, applyAssetForm, Function.comp]
      rw [he]
      exact h
  | delete i confirmed =>
    rw [assetStep]
    split
    · exact List.Nodup.sublist
        (List.Sublist.map Asset.id (List.filter_sublist s)) h
    · exact h

theorem tradeStep_nodup (s : List OptionTrade) (op : TradeOp)
    (h : (tradeIds s).Nodup)
    (hf : ∀ gid f, op = TradeOp.create gid f → gid ∉ tradeIds s) :
    (tradeIds (tradeStep s op)).Nodup := by
  cases op with
  | create gid f =>
    rw [tradeStep]
    split
    · exact h
    · have hg : gid ∉ tradeIds s := hf gid f rfl
      have he : tradeIds (mkTrade gid f :: s) = gid :: tradeIds s := by
        simp [tradeIds, mkTrade]
      rw [he, List.nodup_cons]
      exact ⟨hg, h⟩
  | update eid f =>
    rw [tradeStep]
    split
    · exact h
    · have he :
          tradeIds (s.map fun t =>
            if t.id = eid then applyTradeForm t f else t) = tradeIds s := by
        simp only [tradeIds, List.map_map]
        apply List.map_congr_left
        intro t _
        by_cases ht : t.id = eid <;> simp [ht, applyTradeForm, Function.comp]
      rw [he]
      exact h
  | delete i confirmed =>
    rw [tradeStep]
    split
    · exact List.Nodup.sublist
        (List.Sublist.map OptionTrade.id (List.filter_sublist s)) h
    · exact h

theorem airdropStep_nodup (s : List AirdropProject) (op : AirdropOp)
    (h : (airdropIds s).Nodup)
    (hf : ∀ gid f, op = AirdropOp.create gid f → gid ∉ airdropIds s) :
    (airdropIds (airdropStep s op)).Nodup := by
  cases op with
  | create gid f =>
    rw [airdropStep]
    split
    · exact h
    · have hg : gid ∉ airdropIds s := hf gid f rfl
      have he : airdropIds (mkProject gid f :: s) = gid :: airdropIds s := by
        simp [airdropIds, mkProject]
      rw [he, List.nodup_cons]
      exact ⟨hg, h⟩
  | update eid f =>
    rw [airdropStep]
    split
    · exact h
    · have he :
          airdropIds (s.map fun a =>
            if a.id = eid then applyAirdropForm a f else a) =
            airdropIds s := by
        simp only [airdropIds, List.map_map]
        apply List.map_congr_left
        intro a _
        by_cases ha : a.id = eid <;>
          simp [ha, applyAirdropForm, Function.comp]
      rw [he]
      exact h
  | delete i confirmed =>
    rw [airdropStep]
    split
    · exact List.Nodup.sublist
        (List.Sublist.map AirdropProject.id (List.filter_sublist s)) h
    · exact h

theorem assetRun_nodup (ops : List AssetOp) (s : List Asset)
    (h : (assetIds s).Nodup) (hf : assetCreatesFresh s ops = true) :
    (assetIds (assetRun s ops)).Nodup := by
  induction ops generalizing s with
  | nil => simpa [assetRun] using h
  | cons op ops ih =>
    rw [assetRun, List.foldl_cons]
    cases op with
    | create gid f =>
      simp only [assetCreatesFresh, Bool.and_eq_true] at hf
      refine ih _ (assetStep_nodup s _ h ?_) hf.2
      intro gid2 f2 hop
      cases hop
      simpa using hf.1
    | update eid f =>
      simp only [assetCreatesFresh, Bool.true_and] at hf
      exact ih _ (assetStep_nodup s _ h
        (fun gid f2 hop => AssetOp.noConfusion hop)) hf
    | delete did c =>
      simp only [assetCreatesFresh, Bool.true_and] at hf
      exact ih _ (assetStep_nodup s _ h
        (fun gid f2 hop => AssetOp.noConfusion hop)) hf

theorem tradeRun_nodup (ops : List TradeOp) (s : List OptionTrade)
    (h : (tradeIds s).Nodup) (hf : tradeCreatesFresh s ops = true) :
    (tradeIds (tradeRun s ops)).Nodup := by
  induction ops generalizing s with
  | nil => simpa [tradeRun] using h
  | cons op ops ih =>
    rw [tradeRun, List.foldl_cons]
    cases op with
    | create gid f =>
      simp only [tradeCreatesFresh, Bool.and_eq_true] at hf
      refine ih _ (tradeStep_nodup s _ h ?_) hf.2
      intro gid2 f2 hop
      cases hop
      simpa using hf.1
    | update eid f =>
      simp only [tradeCreatesFresh, Bool.true_and] at hf
      exact ih _ (tradeStep_nodup s _ h
        (fun gid f2 hop => TradeOp.noConfusion hop)) hf
    | delete did c =>
      simp only [tradeCreatesFresh, Bool.true_and] at hf
      exact ih _ (tradeStep_nodup s _ h
        (fun gid f2 hop => TradeOp.noConfusion hop)) hf

theorem airdropRun_nodup (ops : List AirdropOp) (s : List AirdropProject)
    (h : (airdropIds s).Nodup) (hf : airdropCreatesFresh s ops = true) :
    (airdropIds (airdropRun s ops)).Nodup := by
  induction ops generalizing s with
  | nil => simpa [airdropRun] using h
  | cons op ops ih =>
    rw [airdropRun, List.foldl_cons]
    cases op with
    | create gid f =>
      simp only [airdropCreatesFresh, Bool.and_eq_true] at hf
      refine ih _ (airdropStep_nodup s _ h ?_) hf.2
      intro gid2 f2 hop
      cases hop
      simpa using hf.1
    | update eid f =>
      simp only [airdropCreatesFresh, Bool.true_and] at hf
      exact ih _ (airdropStep_nodup s _ h
        (fun gid f2 hop => AirdropOp.noConfusion hop)) hf
    | delete did c =>
      simp only [airdropCreatesFresh, Bool.true_and] at hf
      exact ih _ (airdropStep_nodup s _ h
        (fun gid f2 hop => AirdropOp.noConfusion hop)) hf

/-- A valid asset form used for concrete sessions. -/
def baseAssetForm : AssetForm :=
  { name := "Gold", ticker := "GLD", type := AssetType.STOCK,
    quantity := 1, currentPrice := 100, currency := "USD" }

/-- A valid trade form used for concrete sessions. -/
def baseTradeForm : TradeForm :=
  { ticker := "TSLA", type := OptionType.SHORT_PUT,
    status := TradeStatus.OPEN, openDate := "2024-01-05",
    expiryDate := "2024-02-16", strikePrice := 100, premium := 500,
    collateralOrCost := 10000, closePrice := none, notes := none }

/-- A valid airdrop form used for concrete sessions. -/
def baseAirdropForm : AirdropForm :=
  { name := "ZetaDrop", twitterUrl := none, status := AirdropStatus.New,
    priority := AirdropPriority.Medium, notes := none }

/-- C6 counterexample: the generated id is Date.now().toString() with no
freshness check, and Date.now is not injective across calls; two creates
carrying the same millisecond timestamp leave the asset collection with a
duplicated id, refuting the claim for arbitrary create sequences. -/
theorem crud_ids_c6_counterexample :
    ¬ (assetIds (assetRun []
        [AssetOp.create "1700000000000" baseAssetForm,
         AssetOp.create "1700000000000" baseAssetForm])).Nodup := by
  decide

/-- C6 (amended): provided every create operation's generated id is not
already present in the collection when it runs (what distinct-millisecond
timestamps give), any sequence of create, update and delete operations on
the asset, trade and airdrop collections preserves pairwise-distinct ids:
updates rewrite fields of the matched record but never its id, deletes
remove records, and creates append or prepend a record with the fresh id. -/
theorem crud_ids_nodup_c6 (sa : List Asset) (opsa : List AssetOp)
    (st : List OptionTrade) (opst : List TradeOp)
    (sd : List AirdropProject) (opsd : List AirdropOp) :
    ((assetIds sa).Nodup → assetCreatesFresh sa opsa = true →
      (assetIds (assetRun sa opsa)).Nodup) ∧
    ((tradeIds st).Nodup → tradeCreatesFresh st opst = true →
      (tradeIds (tradeRun st opst)).Nodup) ∧
    ((airdropIds sd).Nodup → airdropCreatesFresh sd opsd = true →
      (airdropIds (airdropRun sd opsd)).Nodup) :=
  ⟨fun h hf => assetRun_nodup opsa sa h hf,
   fun h hf => tradeRun_nodup opst st h hf,
   fun h hf => airdropRun_nodup opsd sd h hf⟩

/-- C6 witness: a concrete session on each collection - two fresh creates,
an update of the first record, a confirmed delete of the second - run from
the empty collection, each ending with pairwise-distinct ids through
crud_ids_nodup_c6. -/
theorem crud_ids_nodup_c6_witness :
    (assetIds (assetRun []
       [AssetOp.create "1" baseAssetForm, AssetOp.create "2" baseAssetForm,
        AssetOp.update "1" baseAssetForm,
        AssetOp.delete "2" true])).Nodup ∧
    (tradeIds (tradeRun []
       [TradeOp.create "1" baseTradeForm, TradeOp.create "2" baseTradeForm,
        TradeOp.update "1" baseTradeForm,
        TradeOp.delete "2" true])).Nodup ∧
    (airdropIds (airdropRun []
       [AirdropOp.create "1" baseAirdropForm,
        AirdropOp.create "2" baseAirdropForm,
        AirdropOp.update "1" baseAirdropForm,
        AirdropOp.delete "2" true])).Nodup := by
  refine ⟨?_, ?_, ?_⟩
  · exact (crud_ids_nodup_c6 [] _ [] [] [] []).1 (by decide) (by decide)
  · exact (crud_ids_nodup_c6 [] [] [] _ [] []).2.1 (by decide) (by decide)
  · exact (crud_ids_nodup_c6 [] [] [] [] [] _).2.2 (by decide) (by decide)

/-! Price enrichment: totality (C5) and idempotence (C9). -/

/-- C5: for every asset list and every behaviour of the two external
sources - thrown network error, non-ok or malformed response, at either
stage - the exception-explicit embedding of fetchMarketPrices returns
Except.ok of the partial mapping built by the surviving stages; it never
propagates an error to its caller, and a total failure returns the empty
mapping. -/
theorem fetchMarketPricesE_c5 (env : FetchEnv) (assets : List Asset) :
    fetchMarketPricesE env assets =
      Except.ok (fetchMarketPrices env assets) := by
  obtain ⟨cr, sr⟩ := env
  unfold fetchMarketPricesE fetchMarketPrices
  rcases cr with e | (_ | d) <;> rcases sr with e2 | (_ | d2) <;>
    by_cases h1 : (cryptoIdsOf assets).isEmpty <;>
    by_cases h2 : (stockTickersOf assets).isEmpty <;>
    simp [h1, h2, Except.map, Except.bind]

theorem applyOne_name (prices : Record) (ts : String) (a : Asset) :
    (applyOne prices ts a).name = a.name := by
  unfold applyOne
  repeat' split
  all_goals rfl

theorem applyOne_ticker (prices : Record) (ts : String) (a : Asset) :
    (applyOne prices ts a).ticker = a.ticker := by
  unfold applyOne
  repeat' split
  all_goals rfl

theorem applyOne_type (prices : Record) (ts : String) (a : Asset) :
    (applyOne prices ts a).type = a.type := by
  unfold applyOne
  repeat' split
  all_goals rfl

theorem tickerUC_applyOne (prices : Record) (ts : String) (a : Asset) :
    tickerUC (applyOne prices ts a) = tickerUC a := by
  unfold tickerUC
  rw [applyOne_name, applyOne_ticker]

theorem geckoId_applyOne (prices : Record) (ts : String) (a : Asset) :
    geckoId (applyOne prices ts a) = geckoId a := by
  unfold geckoId
  rw [tickerUC_applyOne, applyOne_name]

theorem assetKey_applyOne (prices : Record) (ts : String) (a : Asset) :
    assetKey (applyOne prices ts a) = assetKey a := by
  unfold assetKey
  rw [applyOne_name, applyOne_ticker]

theorem matchesTicker_applyOne (prices : Record) (ts : String) (a : Asset)
    (t : String) :
    matchesTicker (applyOne prices ts a) t = matchesTicker a t := by
  unfold matchesTicker
  rw [applyOne_name, applyOne_ticker]

theorem filter_crypto_applyPrices (prices : Record) (ts : String)
    (assets : List Asset) :
    ((assets.map (applyOne prices ts)).filter
        (fun a => decide (a.type = AssetType.CRYPTO))) =
      (assets.filter (fun a => decide (a.type = AssetType.CRYPTO))).map
        (applyOne prices ts) := by
  rw [List.filter_map]
  congr 1
  apply List.filter_congr
  intro a _
  simp [Function.comp, applyOne_type]

theorem filter_stock_applyPrices (prices : Record) (ts : String)
    (assets : List Asset) :
    ((assets.map (applyOne prices ts)).filter
        (fun a => decide (a.type = AssetType.STOCK))) =
      (assets.filter (fun a => decide (a.type = AssetType.STOCK))).map
        (applyOne prices ts) := by
  rw [List.filter_map]
  congr 1
  apply List.filter_congr
  intro a _
  simp [Function.comp, applyOne_type]

theorem cryptoIdsOf_applyPrices (prices : Record) (ts : String)
    (assets : List Asset) :
    cryptoIdsOf (assets.map (applyOne prices ts)) = cryptoIdsOf assets := by
  unfold cryptoIdsOf
  rw [filter_crypto_applyPrices, List.map_map]
  apply List.map_congr_left
  intro a _
  exact geckoId_applyOne prices ts a

theorem stockTickersOf_applyPrices (prices : Record) (ts : String)
    (assets : List Asset) :
    stockTickersOf (assets.map (applyOne prices ts)) =
      stockTickersOf assets := by
  unfold stockTickersOf
  rw [filter_stock_applyPrices, List.map_map]
  apply List.map_congr_left
  intro a _
  exact tickerUC_applyOne prices ts a

theorem cryptoMerge_applyPrices (prices : Record) (ts : String)
    (assets : List Asset) (data : List (String × ℚ)) (init : Record) :
    cryptoMerge (assets.map (applyOne prices ts)) data init =
      cryptoMerge assets data init := by
  unfold cryptoMerge
  rw [filter_crypto_applyPrices, List.foldl_map]
  apply List.foldl_ext
  intro acc a _
  simp only [geckoId_applyOne, assetKey_applyOne]

theorem stockMergeOne_applyPrices (prices : Record) (ts : String)
    (assets : List Asset) (m : Record) (e : String × ℚ) :
    stockMergeOne (assets.map (applyOne prices ts)) m e =
      stockMergeOne assets m e := by
  unfold stockMergeOne
  rw [List.find?_map]
  rw [show ((fun a => matchesTicker a e.1) ∘ applyOne prices ts) =
      (fun a => matchesTicker a e.1) from
    funext fun a => matchesTicker_applyOne prices ts a e.1]
  cases h : assets.find? (fun a => matchesTicker a e.1) <;>
    simp [assetKey_applyOne]

theorem stockMerge_applyPrices (prices : Record) (ts : String)
    (assets : List Asset) (data : List (String × ℚ)) (init : Record) :
    stockMerge (assets.map (applyOne prices ts)) data init =
      stockMerge assets data init := by
  unfold stockMerge
  apply List.foldl_ext
  intro acc e _
  exact stockMergeOne_applyPrices prices ts assets acc e

theorem fetchMarketPrices_applyPrices (env : FetchEnv)
    (assets : List Asset) (prices : Record) (ts : String) :
    fetchMarketPrices env (applyPrices assets prices ts) =
      fetchMarketPrices env assets := by
  obtain ⟨cr, sr⟩ := env
  unfold fetchMarketPrices applyPrices
  rcases cr with e | (_ | d) <;> rcases sr with e2 | (_ | d2) <;>
    by_cases h1 : (cryptoIdsOf assets).isEmpty <;>
    by_cases h2 : (stockTickersOf assets).isEmpty <;>
    simp [h1, h2, cryptoIdsOf_applyPrices, stockTickersOf_applyPrices,
      cryptoMerge_applyPrices, stockMerge_applyPrices]

/-- C9: the price-enrichment routine is idempotent: fetching once, applying
the resulting mapping to the assets the way handleUpdatePrices does, and
fetching again against unchanged source responses yields the same mapping,
because fetchMarketPrices reads only the name, ticker and declared type of
each asset and the price update rewrites only currentPrice and
lastUpdated. -/
theorem fetchMarketPrices_idempotent_c9 (env : FetchEnv)
    (assets : List Asset) (ts : String) :
    fetchMarketPrices env
        (applyPrices assets (fetchMarketPrices env assets) ts) =
      fetchMarketPrices env assets :=
  fetchMarketPrices_applyPrices env assets (fetchMarketPrices env assets) ts

/-! Lookup lemmas for the price mapping (shared by C3 and C4). -/

theorem lookup_cons (k a : String) (b : ℚ) (es : List (String × ℚ)) :
    ((k, b) :: es).lookup a = if a = k then some b else es.lookup a := by
  by_cases h : a = k
  · simp [List.lookup, h]
  · have hb : (a == k) = false := beq_eq_false_iff_ne.mpr h
    simp [List.lookup, hb, h]

theorem lookup_map_set (m : Record) (k k' : String) (v : ℚ) :
    (m.map (fun e => if e.1 = k then (k, v) else e)).lookup k' =
      if k' = k then (if (m.lookup k).isSome then some v else none)
      else m.lookup k' := by
  induction m with
  | nil => by_cases hk : k' = k <;> simp [hk]
  | cons e rest ih =>
    obtain ⟨ek, ev⟩ := e
    by_cases he : ek = k
    · subst he
      by_cases hk : k' = ek <;> simp [lookup_cons, hk, ih]
    · have he' : ¬ k = ek := fun hh => he hh.symm
      by_cases hk : k' = k
      · subst hk
        have hcons : List.lookup k' ((ek, ev) :: rest) =
            List.lookup k' rest := by
          rw [lookup_cons, if_neg he']
        simp [lookup_cons, he, he', ih]
        rw [hcons]
      · by_cases hke : k' = ek <;> simp [lookup_cons, he, he', hk, hke, ih]

theorem lookup_append_single (m : Record) (k k' : String) (v : ℚ)
    (h : m.lookup k = none) :
    (m ++ [(k, v)]).lookup k' = if k' = k then some v else m.lookup k' := by
  induction m with
  | nil => by_cases hk : k' = k <;> simp [lookup_cons, hk]
  | cons e rest ih =>
    obtain ⟨ek, ev⟩ := e
    rw [lookup_cons] at h
    by_cases hek : k = ek
    · rw [if_pos hek] at h
      exact absurd h (by simp)
    · rw [if_neg hek] at h
      rw [List.cons_append, lookup_cons, lookup_cons, ih h]
      have hek2 : ¬ ek = k := fun hh => hek hh.symm
      by_cases hk : k' = k <;> by_cases hke : k' = ek
      · exact absurd (hk.symm.trans hke) hek
      · simp [hk, hke, hek, hek2]
      · simp [hk, hke, hek, hek2]
      · simp [hk, hke, hek, hek2]

theorem lookup_recSet (m : Record) (k k' : String) (v : ℚ) :
    (recSet m k v).lookup k' = if k' = k then some v else m.lookup k' := by
  unfold recSet
  by_cases hs : (m.lookup k).isSome
  · rw [if_pos hs, lookup_map_set]
    by_cases hk : k' = k <;> simp [hk, hs]
  · rw [if_neg hs]
    have hnone : m.lookup k = none := by
      cases h : m.lookup k
      · rfl
      · rw [h] at hs
        exact absurd rfl hs
    exact lookup_append_single m k k' v hnone

theorem lookup_recSet_isSome (m : Record) (k k' : String) (v : ℚ)
    (h : (m.lookup k').isSome = true) :
    ((recSet m k v).lookup k').isSome = true := by
  rw [lookup_recSet]
  by_cases hk : k' = k <;> simp [hk, h]

/-! The stock merge step characterised (C3). -/

theorem find?_eq_some_split {α : Type} (p : α → Bool) (l : List α) (a : α)
    (h : l.find? p = some a) :
    ∃ pre post, l = pre ++ a :: post ∧ p a = true ∧
      ∀ b ∈ pre, p b = false := by
  induction l with
  | nil => simp at h
  | cons x xs ih =>
    by_cases hx : p x
    · rw [List.find?_cons_of_pos xs hx] at h
      have hxa : x = a := by injection h
      subst hxa
      exact ⟨[], xs, rfl, hx, by simp⟩
    · rw [List.find?_cons_of_neg xs (by simpa using hx)] at h
      obtain ⟨pre, post, heq, hpa, hpre⟩ := ih h
      refine ⟨x :: pre, post, by rw [heq]; rfl, hpa, ?_⟩
      intro b hb
      rcases List.mem_cons.mp hb with rfl | hmem
      · simpa using hx
      · exact hpre b hmem

theorem mergeKey_characterization (assets : List Asset) (t : String) :
    (∃ pre a post, assets = pre ++ a :: post ∧ matchesTicker a t = true ∧
      (∀ b ∈ pre, matchesTicker b t = false) ∧
      mergeKey assets t = assetKey a) ∨
    ((∀ a ∈ assets, matchesTicker a t = false) ∧ mergeKey assets t = t) := by
  cases h : assets.find? (fun a => matchesTicker a t) with
  | none =>
    right
    constructor
    · intro a ha
      have := List.find?_eq_none.mp h a ha
      simpa using this
    · unfold mergeKey
      rw [h]
  | some a =>
    left
    obtain ⟨pre, post, heq, hpa, hpre⟩ := find?_eq_some_split _ _ _ h
    exact ⟨pre, a, post, heq, hpa, hpre, by unfold mergeKey; rw [h]⟩

theorem stockMergeOne_eq_recSet (assets : List Asset) (m : Record)
    (e : String × ℚ) :
    stockMergeOne assets m e = recSet m (mergeKey assets e.1) e.2 := by
  unfold stockMergeOne mergeKey
  cases h : assets.find? (fun a => matchesTicker a e.1) <;> rfl

theorem stockMerge_lookup_isSome (assets : List Asset)
    (data : List (String × ℚ)) :
    ∀ init k, (init.lookup k).isSome = true →
      ((stockMerge assets data init).lookup k).isSome = true := by
  induction data with
  | nil =>
    intro init k h
    exact h
  | cons e rest ih =>
    intro init k h
    rw [stockMerge, List.foldl_cons]
    have step : ((stockMergeOne assets init e).lookup k).isSome = true := by
      rw [stockMergeOne_eq_recSet]
      exact lookup_recSet_isSome init (mergeKey assets e.1) k e.2 h
    have := ih (stockMergeOne assets init e) k step
    rwa [stockMerge] at this

theorem stockMerge_no_drop (assets : List Asset)
    (data : List (String × ℚ)) :
    ∀ init, ∀ e ∈ data,
      ((stockMerge assets data init).lookup
        (mergeKey assets e.1)).isSome = true := by
  induction data with
  | nil =>
    intro init e he
    simp at he
  | cons d rest ih =>
    intro init e he
    rw [stockMerge, List.foldl_cons]
    rcases List.mem_cons.mp he with rfl | hmem
    · have step : ((stockMergeOne assets init e).lookup
          (mergeKey assets e.1)).isSome = true := by
        rw [stockMergeOne_eq_recSet, lookup_recSet, if_pos rfl]
        rfl
      have := stockMerge_lookup_isSome assets rest
        (stockMergeOne assets init e) (mergeKey assets e.1) step
      rwa [stockMerge] at this
    · have := ih (stockMergeOne assets init d) e hmem
      rwa [stockMerge] at this

/-- Modelled from the spec's words, for comparison only (C3): the claimed
lookup precedence - first pass over all records comparing tickers
case-insensitively, then a second pass comparing display names, then the
raw returned ticker as fallback key. -/
def specMergeKey (assets : List Asset) (t : String) : String :=
  match assets.find? (fun a =>
    match a.ticker with
    | some s => upper s == upper t
    | none => false) with
  | some a => assetKey a
  | none =>
    match assets.find? (fun a => upper a.name == upper t) with
    | some a => assetKey a
    | none => t

/-- An asset whose display name is TSLA but whose ticker is X. -/
def nameTsla : Asset :=
  { id := "x1", name := "TSLA", ticker := some "X",
    type := AssetType.STOCK, quantity := 1, currentPrice := 1,
    currency := "USD", lastUpdated := none }

/-- An asset whose ticker is TSLA. -/
def tickTsla : Asset :=
  { id := "x2", name := "Y", ticker := some "TSLA",
    type := AssetType.STOCK, quantity := 1, currentPrice := 1,
    currency := "USD", lastUpdated := none }

/-- C3 counterexample: with a name-matching record ahead of a
ticker-matching record, the code keys the returned TSLA price by the first
record matching either way (key X), while the claimed
ticker-before-name precedence would key it by the ticker-matching record
(key TSLA): the match has no ticker-over-name precedence, only input-order
precedence over the disjunction. -/
theorem stockMerge_c3_counterexample :
    mergeKey [nameTsla, tickTsla] "TSLA" = "X" ∧
    specMergeKey [nameTsla, tickTsla] "TSLA" = "TSLA" ∧
    stockMerge [nameTsla, tickTsla] [("TSLA", 5)] [] = [("X", 5)] ∧
    ("X" : String) ≠ "TSLA" := by
  refine ⟨by decide, by decide, by decide, by decide⟩

/-- C3 (amended): for every price returned by the stock source, the
matching input record is the first record in input order that matches the
returned ticker case-insensitively by its ticker or by its display name
(a single disjunctive pass, not a ticker-first-then-name precedence); only
when no record matches either way is the price keyed by the raw returned
ticker string; and every returned price leaves its key present in the
output mapping, so none is dropped. -/
theorem stockMerge_c3_amended (assets : List Asset)
    (data : List (String × ℚ)) (init : Record) (t : String) :
    ((∃ pre a post, assets = pre ++ a :: post ∧ matchesTicker a t = true ∧
        (∀ b ∈ pre, matchesTicker b t = false) ∧
        mergeKey assets t = assetKey a) ∨
      ((∀ a ∈ assets, matchesTicker a t = false) ∧
        mergeKey assets t = t)) ∧
    (∀ p : ℚ, (t, p) ∈ data →
      ((stockMerge assets data init).lookup
        (mergeKey assets t)).isSome = true) :=
  ⟨mergeKey_characterization assets t,
   fun p hp => stockMerge_no_drop assets data init (t, p) hp⟩

/-- C3 witness: the amended characterisation applied to the counterexample
scene: the TSLA price is recorded, under the key of the first record
matching either way. -/
theorem stockMerge_c3_amended_witness :
    ((stockMerge [nameTsla, tickTsla] [("TSLA", 5)] []).lookup
      (mergeKey [nameTsla, tickTsla] "TSLA")).isSome = true :=
  (stockMerge_c3_amended [nameTsla, tickTsla] [("TSLA", 5)] [] "TSLA").2
    5 (by simp)

/-! Value provenance in the merged mapping (C4). -/

theorem cryptoMerge_lookup_ne_zero (assets : List Asset)
    (data : List (String × ℚ)) :
    ∀ init k v, ((cryptoMerge assets data init).lookup k = some v) →
      v ≠ 0 ∨ init.lookup k = some v := by
  unfold cryptoMerge
  generalize (assets.filter fun a => decide (a.type = AssetType.CRYPTO)) = l
  induction l with
  | nil =>
    intro init k v h
    exact Or.inr h
  | cons a rest ih =>
    intro init k v h
    rw [List.foldl_cons] at h
    rcases ih _ k v h with hv | hlook
    · exact Or.inl hv
    · cases hd : data.lookup (geckoId a) with
      | none =>
        simp only [hd] at hlook
        exact Or.inr hlook
      | some usd =>
        simp only [hd] at hlook
        by_cases hz : usd = 0
        · rw [if_pos hz] at hlook
          exact Or.inr hlook
        · rw [if_neg hz, lookup_recSet] at hlook
          by_cases hk : k = assetKey a
          · rw [if_pos hk] at hlook
            have hv : usd = v := by injection hlook
            exact Or.inl (hv ▸ hz)
          · rw [if_neg hk] at hlook
            exact Or.inr hlook

theorem stockMerge_lookup_mem (assets : List Asset)
    (data : List (String × ℚ)) :
    ∀ init k v, ((stockMerge assets data init).lookup k = some v) →
      (∃ t, (t, v) ∈ data) ∨ init.lookup k = some v := by
  induction data with
  | nil =>
    intro init k v h
    exact Or.inr h
  | cons e rest ih =>
    intro init k v h
    rw [stockMerge, List.foldl_cons] at h
    have h2 : (stockMerge assets rest
        (stockMergeOne assets init e)).lookup k = some v := by
      rw [stockMerge]
      exact h
    rcases ih _ k v h2 with ⟨t, ht⟩ | hlook
    · exact Or.inl ⟨t, List.mem_cons_of_mem _ ht⟩
    · rw [stockMergeOne_eq_recSet, lookup_recSet] at hlook
      by_cases hk : k = mergeKey assets e.1
      · rw [if_pos hk] at hlook
        have hv : e.2 = v := by injection hlook
        exact Or.inl ⟨e.1, by rw [← hv]; exact List.mem_cons_self _ _⟩
      · rw [if_neg hk] at hlook
        exact Or.inr hlook

theorem cryptoStage_lookup_ne_zero
    (cr : Except String (Option (List (String × ℚ))))
    (assets : List Asset) (b : Bool) (k : String) (v : ℚ)
    (h : ((if b then ([] : Record)
        else match cr with
          | Except.ok (some data) => cryptoMerge assets data []
          | _ => ([] : Record))).lookup k = some v) :
    v ≠ 0 := by
  cases b with
  | true => simp [List.lookup] at h
  | false =>
    rcases cr with e | (_ | d)
    · simp [List.lookup] at h
    · simp [List.lookup] at h
    · simp only [if_false, ite_false, Bool.false_eq_true] at h
      rcases cryptoMerge_lookup_ne_zero assets d [] k v h with hv | hbad
      · exact hv
      · simp [List.lookup] at hbad

theorem fetchMarketPrices_decomp (env : FetchEnv) (assets : List Asset) :
    fetchMarketPrices env assets =
      if (stockTickersOf assets).isEmpty then
        (if (cryptoIdsOf assets).isEmpty then ([] : Record)
         else match env.cryptoResp with
           | Except.ok (some data) => cryptoMerge assets data []
           | _ => ([] : Record))
      else match env.stockResp with
        | Except.ok (some data) => stockMerge assets data
            (if (cryptoIdsOf assets).isEmpty then ([] : Record)
             else match env.cryptoResp with
               | Except.ok (some data) => cryptoMerge assets data []
               | _ => ([] : Record))
        | _ =>
            (if (cryptoIdsOf assets).isEmpty then ([] : Record)
             else match env.cryptoResp with
               | Except.ok (some data) => cryptoMerge assets data []
               | _ => ([] : Record)) := rfl

/-- C4 (amended): any value of the mapping that is zero (or otherwise not
positive) can only have been copied verbatim from an entry of the stock
source's response: the crypto path inserts only truthy (nonzero) usd
values, while the stock path inserts Number(price) with no positivity
check; tickers for which no price could be determined remain absent. -/
theorem fetchMarketPrices_values_c4 (env : FetchEnv) (assets : List Asset)
    (k : String) (v : ℚ)
    (h : (fetchMarketPrices env assets).lookup k = some v) :
    v ≠ 0 ∨ ∃ data t, env.stockResp = Except.ok (some data) ∧
      (t, v) ∈ data := by
  rw [fetchMarketPrices_decomp] at h
  by_cases h2 : (stockTickersOf assets).isEmpty
  · rw [if_pos h2] at h
    exact Or.inl (cryptoStage_lookup_ne_zero env.cryptoResp assets _ k v h)
  · rw [if_neg h2] at h
    cases hsr : env.stockResp with
    | error e2 =>
      rw [hsr] at h
      exact Or.inl (cryptoStage_lookup_ne_zero env.cryptoResp assets _ k v h)
    | ok o2 =>
      cases o2 with
      | none =>
        rw [hsr] at h
        exact Or.inl
          (cryptoStage_lookup_ne_zero env.cryptoResp assets _ k v h)
      | some d2 =>
        rw [hsr] at h
        rcases stockMerge_lookup_mem assets d2 _ k v h with ⟨t, ht⟩ | hlook
        · exact Or.inr ⟨d2, t, rfl, ht⟩
        · exact Or.inl
            (cryptoStage_lookup_ne_zero env.cryptoResp assets _ k v hlook)

/-- A stock asset AAPL used for concrete price-merge evaluations. -/
def aaplStock : Asset :=
  { id := "s1", name := "Apple", ticker := some "AAPL",
    type := AssetType.STOCK, quantity := 1, currentPrice := 1,
    currency := "USD", lastUpdated := none }

/-- C4 counterexample: when the stock source answers with price 0 for AAPL,
the mapping contains the entry AAPL maps-to 0 - an entry that is not a
positive number - because the stock merge path stores the returned number
unchecked. -/
theorem fetchMarketPrices_c4_counterexample :
    (fetchMarketPrices
      { cryptoResp := Except.ok none,
        stockResp := Except.ok (some [("AAPL", 0)]) }
      [aaplStock]).lookup "AAPL" = some 0 ∧
    ¬ ((0 : ℚ) > 0) := by
  refine ⟨by decide, by norm_num⟩

/-- C4 witness: with a stock response of 7 for AAPL the mapping holds 7,
and fetchMarketPrices_values_c4 applied at that input attributes the value:
it is nonzero or copied from the stock response. -/
theorem fetchMarketPrices_values_c4_witness :
    (fetchMarketPrices
      { cryptoResp := Except.ok none,
        stockResp := Except.ok (some [("AAPL", 7)]) }
      [aaplStock]).lookup "AAPL" = some 7 ∧
    ((7 : ℚ) ≠ 0 ∨ ∃ data t,
      (Except.ok (some [("AAPL", (7 : ℚ))]) :
        Except String (Option (List (String × ℚ)))) =
        Except.ok (some data) ∧ (t, (7 : ℚ)) ∈ data) := by
  refine ⟨by decide, ?_⟩
  exact fetchMarketPrices_values_c4
    { cryptoResp := Except.ok none,
      stockResp := Except.ok (some [("AAPL", 7)]) }
    [aaplStock] "AAPL" 7 (by decide)

end WealthApp
